import Mathlib

/-!
Verification of the realtime messaging/notification subsystem of the
AOV-Social-Platform backend.

Definitions are a shallow embedding of the Python sources:
- `backend/app/models/conversation.py` (data model),
- `backend/app/services/message_service.py` (conversation/message operations),
- `backend/app/services/message_consumer.py` (`_handle_message_delivered`),
- `backend/app/services/notification_consumer.py` (`_process_message`),
- `backend/app/services/redis_client.py` (presence tracking, listener backoff),
- `backend/app/api/routes/websocket.py` (`handle_client_message`).

Document ids are modelled as natural numbers drawn from a per-database
fresh-id counter (the source uses UUID strings, whose only relevant
property is freshness); timestamps (`utc_now()`) are modelled as a `now`
argument of type `Nat`; user ids are strings as in the source.
-/

namespace AOV

/-- `ConversationType` enum from `conversation.py`. -/
inductive ConversationType
  | DIRECT
  | GROUP
deriving DecidableEq, Repr

/-- `ParticipantRole` enum from `conversation.py`. -/
inductive ParticipantRole
  | MEMBER
  | ADMIN
deriving DecidableEq, Repr

/-- `MessageType` enum from `conversation.py`. -/
inductive MessageType
  | TEXT
  | IMAGE
  | VIDEO
  | MIXED
deriving DecidableEq, Repr

/-- `MessageStatus` enum from `conversation.py`. -/
inductive MessageStatus
  | SENT
  | DELIVERED
  | SEEN
deriving DecidableEq, Repr

/-- `MediaAttachment` embedded model (fields irrelevant to the claims are
dropped; `type` is the `"image"`/`"video"` discriminator string). -/
structure MediaAttachment where
  url : String
  type : String
deriving DecidableEq, Repr

/-- `Conversation` document from `conversation.py`. -/
structure Conversation where
  id : Nat
  type : ConversationType
  name : Option String
  avatar_url : Option String
  created_by : Option String
  created_at : Nat
  updated_at : Nat
  last_message_id : Option Nat
  last_message_content : Option String
  last_message_at : Option Nat
deriving DecidableEq, Repr

/-- `ConversationParticipant` document from `conversation.py`. -/
structure ConversationParticipant where
  id : Nat
  conversation_id : Nat
  user_id : String
  role : ParticipantRole
  last_seen_message_id : Option Nat
  unread_count : Nat
  muted : Bool
  joined_at : Nat
  left_at : Option Nat
deriving DecidableEq, Repr

/-- `Message` document from `conversation.py`. -/
structure Message where
  id : Nat
  conversation_id : Nat
  sender_id : String
  content : Option String
  type : MessageType
  media : List MediaAttachment
  status : MessageStatus
  reply_to_message_id : Option Nat
  created_at : Nat
  updated_at : Option Nat
  deleted_at : Option Nat
deriving DecidableEq, Repr

/-- The document store: the three collections touched by the messaging
service, plus the fresh-id counter. -/
structure DB where
  conversations : List Conversation
  participants : List ConversationParticipant
  messages : List Message
  nextId : Nat
deriving DecidableEq, Repr

/-- `MessageCreate` schema from `conversation.py`. -/
structure MessageCreate where
  content : Option String
  media : List MediaAttachment
  reply_to_message_id : Option Nat
deriving DecidableEq, Repr

/-- `ConversationCreate` schema from `conversation.py`. -/
structure ConversationCreate where
  type : ConversationType
  participant_ids : List String
  name : Option String
  avatar_url : Option String
deriving DecidableEq, Repr

/-- Python truthiness of an `Optional[str]`: `None` and `""` are falsy. -/
def optTruthy : Option String → Bool
  | none => false
  | some s => s != ""

/-- Apply `f` to the first element satisfying `p` (models Beanie
`find_one` followed by a `save` of the mutated document). -/
def updateFirst {α : Type} (p : α → Bool) (f : α → α) : List α → List α
  | [] => []
  | x :: xs => if p x then f x :: xs else x :: updateFirst p f xs

/-- The participant filter used by `find_one` in `mark_conversation_seen`
and `add_participant`: matches on conversation and user, with no
`left_at` condition. -/
def participantKey (conversation_id : Nat) (user_id : String)
    (p : ConversationParticipant) : Bool :=
  p.conversation_id == conversation_id && p.user_id == user_id

/-- The active-participant filter (`conversation_id`, `user_id`,
`left_at == None`) used by `is_participant` and the inner
`find_one` of `get_direct_conversation`. -/
def participantMatches (conversation_id : Nat) (user_id : String)
    (q : ConversationParticipant) : Bool :=
  q.conversation_id == conversation_id && q.user_id == user_id && q.left_at == none

/-- The conversation filter (`id`, `type == DIRECT`) used by
`get_direct_conversation`. -/
def directConvMatches (conversation_id : Nat) (c : Conversation) : Bool :=
  c.id == conversation_id && c.type == ConversationType.DIRECT

/-- The filter selecting a user's active participant records, used by
`get_direct_conversation` for its outer query. -/
def activeOf (user_id : String) (p : ConversationParticipant) : Bool :=
  p.user_id == user_id && p.left_at == none

/-- `MessageService.is_participant`. -/
def isParticipant (db : DB) (conversation_id : Nat) (user_id : String) : Bool :=
  db.participants.any (participantMatches conversation_id user_id)

/-- The message-type determination at the top of
`MessageService.send_message`: `TEXT` without media; with media, the
first `"video"` attachment (if any) decides between `VIDEO`/`MIXED`,
otherwise `IMAGE`/`MIXED`, keyed on content truthiness. -/
def computeMessageType (content : Option String) (media : List MediaAttachment) :
    MessageType :=
  if media.isEmpty then .TEXT
  else if media.any (fun m => m.type == "video") then
    (if optTruthy content then .MIXED else .VIDEO)
  else
    (if optTruthy content then .MIXED else .IMAGE)

/-- The last-message preview stored on the conversation by `send_message`:
`data.content[:100] if data.content else "[Media]"`. -/
def lastMessagePreview : Option String → String
  | none => "[Media]"
  | some s => if s != "" then s.take 100 else "[Media]"

/-- `MessageService.send_message`.  Returns the raised `ValueError` or the
created message, paired with the resulting store (unchanged when the
error is raised before any write). -/
def sendMessage (db : DB) (conversation_id : Nat) (sender_id : String)
    (data : MessageCreate) (now : Nat) : Except String Message × DB :=
  if !(isParticipant db conversation_id sender_id) then
    (.error "User is not a participant in this conversation", db)
  else
    let message : Message :=
      { id := db.nextId
        conversation_id := conversation_id
        sender_id := sender_id
        content := data.content
        type := computeMessageType data.content data.media
        media := data.media
        status := .SENT
        reply_to_message_id := data.reply_to_message_id
        created_at := now
        updated_at := none
        deleted_at := none }
    let messages := db.messages ++ [message]
    let conversations :=
      updateFirst (fun c => c.id == conversation_id)
        (fun c =>
          { c with
            last_message_id := some message.id
            last_message_content := some (lastMessagePreview data.content)
            last_message_at := some now
            updated_at := now })
        db.conversations
    let participants := db.participants.map fun p =>
      if p.conversation_id == conversation_id && p.user_id != sender_id
          && p.left_at == none then
        { p with unread_count := p.unread_count + 1 }
      else p
    (.ok message,
      { conversations := conversations
        participants := participants
        messages := messages
        nextId := db.nextId + 1 })

/-- `MessageService.mark_conversation_seen`. -/
def markConversationSeen (db : DB) (conversation_id : Nat) (user_id : String)
    (message_id : Nat) : DB :=
  if db.participants.any (participantKey conversation_id user_id) then
    let participants :=
      updateFirst (participantKey conversation_id user_id)
        (fun p => { p with last_seen_message_id := some message_id, unread_count := 0 })
        db.participants
    let messages := db.messages.map fun m =>
      if m.conversation_id == conversation_id && m.sender_id != user_id
          && m.status != MessageStatus.SEEN then
        { m with status := .SEEN }
      else m
    { db with participants := participants, messages := messages }
  else db

/-- `MessageService.add_participant`. -/
def addParticipant (db : DB) (conversation_id : Nat) (user_id : String)
    (role : ParticipantRole) (now : Nat) : DB :=
  match db.participants.find? (participantKey conversation_id user_id) with
  | some existing =>
    if existing.left_at != none then
      { db with
        participants :=
          updateFirst (participantKey conversation_id user_id)
            (fun p => { p with left_at := none, joined_at := now, role := role })
            db.participants }
    else db
  | none =>
    let participant : ConversationParticipant :=
      { id := db.nextId
        conversation_id := conversation_id
        user_id := user_id
        role := role
        last_seen_message_id := none
        unread_count := 0
        muted := false
        joined_at := now
        left_at := none }
    { db with participants := db.participants ++ [participant], nextId := db.nextId + 1 }

/-- The loop body of `MessageService.get_direct_conversation`: walk
`user_1`'s active participant records; for each conversation id check
that `user_id_2` is an active participant and that the conversation is
`DIRECT`. -/
def findDirectIn (db : DB) (user_id_2 : String) :
    List ConversationParticipant → Option Conversation
  | [] => none
  | p :: rest =>
    if db.participants.any (participantMatches p.conversation_id user_id_2) then
      match db.conversations.find? (directConvMatches p.conversation_id) with
      | some conv => some conv
      | none => findDirectIn db user_id_2 rest
    else findDirectIn db user_id_2 rest

/-- `MessageService.get_direct_conversation`. -/
def getDirectConversation (db : DB) (user_id_1 user_id_2 : String) :
    Option Conversation :=
  findDirectIn db user_id_2 (db.participants.filter (activeOf user_id_1))

/-- The unconditional tail of `MessageService.create_conversation`:
insert the conversation, add the creator (admin for groups), then add
the other participants. -/
def createConversationCore (db : DB) (creator_id : String)
    (data : ConversationCreate) (now : Nat) : Conversation × DB :=
  let conversation : Conversation :=
    { id := db.nextId
      type := data.type
      name := if data.type == ConversationType.GROUP then data.name else none
      avatar_url := data.avatar_url
      created_by := if data.type == ConversationType.GROUP then some creator_id else none
      created_at := now
      updated_at := now
      last_message_id := none
      last_message_content := none
      last_message_at := none }
  let db1 : DB :=
    { db with conversations := db.conversations ++ [conversation], nextId := db.nextId + 1 }
  let creator_role :=
    if data.type == ConversationType.GROUP then ParticipantRole.ADMIN
    else ParticipantRole.MEMBER
  let db2 := addParticipant db1 conversation.id creator_id creator_role now
  let db3 := data.participant_ids.foldl
    (fun d uid => addParticipant d conversation.id uid ParticipantRole.MEMBER now) db2
  (conversation, db3)

/-- `MessageService.create_conversation`. -/
def createConversation (db : DB) (creator_id : String)
    (data : ConversationCreate) (now : Nat) : Except String Conversation × DB :=
  match data.type, data.participant_ids with
  | .DIRECT, [other_user_id] =>
    (match getDirectConversation db creator_id other_user_id with
     | some existing => (.ok existing, db)
     | none =>
       let r := createConversationCore db creator_id data now
       (.ok r.1, r.2))
  | .DIRECT, _ => (.error "Direct chat requires exactly one other participant", db)
  | .GROUP, _ =>
    let r := createConversationCore db creator_id data now
    (.ok r.1, r.2)

/-- `MessageConsumer._handle_message_delivered`: look the message up by
id and promote `SENT` to `DELIVERED` (only). -/
def handleMessageDelivered (db : DB) (message_id : Option Nat) : DB :=
  match message_id with
  | none => db
  | some mid =>
    { db with
      messages :=
        updateFirst (fun m => m.id == mid)
          (fun m => if m.status == MessageStatus.SENT then { m with status := .DELIVERED } else m)
          db.messages }

/-- The operations of the subsystem that create messages or touch a
message's `status` field (`send_message`, the `MESSAGE_DELIVERED`
consumer handler, and `mark_conversation_seen`). -/
inductive MessagingOp
  | send (conversation_id : Nat) (sender_id : String) (data : MessageCreate) (now : Nat)
  | delivered (message_id : Option Nat)
  | markSeen (conversation_id : Nat) (user_id : String) (message_id : Nat)

/-- Apply one messaging operation to the store. -/
def applyOp (db : DB) : MessagingOp → DB
  | .send cid sid data now => (sendMessage db cid sid data now).2
  | .delivered mid => handleMessageDelivered db mid
  | .markSeen cid uid mid => markConversationSeen db cid uid mid

/-- Position of a status in the `SENT -> DELIVERED -> SEEN` chain. -/
def statusRank : MessageStatus → Nat
  | .SENT => 0
  | .DELIVERED => 1
  | .SEEN => 2

/-- Well-formedness of the store: every document id and every
`conversation_id` reference is below the fresh-id counter, so a freshly
allocated id collides with nothing (in the source this is uuid4
uniqueness). -/
def DB.WF (db : DB) : Prop :=
  (∀ c ∈ db.conversations, c.id < db.nextId) ∧
  (∀ p ∈ db.participants, p.conversation_id < db.nextId)

/-! ## Redis presence model (`redis_client.py`) -/

/-- The Redis keyspace restricted to what the presence code touches:
an association list from keys to set-valued entries.  A key maps to the
member list of its set; absent keys behave as empty sets.  TTLs
(`expire`, a 24h safety net) are not modelled. -/
structure RedisState where
  store : List (String × List String)
deriving DecidableEq, Repr

/-- `SMEMBERS`-style lookup: the member list of `key`, `[]` if absent. -/
def RedisState.lookup (st : RedisState) (key : String) : List String :=
  match st.store.find? (fun kv => kv.1 == key) with
  | some kv => kv.2
  | none => []

/-- Replace the entry for `key` (creating it if absent). -/
def storeSet (store : List (String × List String)) (key : String)
    (val : List String) : List (String × List String) :=
  if store.any (fun kv => kv.1 == key) then
    store.map (fun kv => if kv.1 == key then (key, val) else kv)
  else store ++ [(key, val)]

/-- `SADD key member`: no-op when the member is already present. -/
def RedisState.sadd (st : RedisState) (key member : String) : RedisState :=
  let cur := st.lookup key
  if member ∈ cur then st else ⟨storeSet st.store key (cur ++ [member])⟩

/-- `SREM key member`: remove the member; no-op on an absent key. -/
def RedisState.srem (st : RedisState) (key member : String) : RedisState :=
  if st.store.any (fun kv => kv.1 == key) then
    ⟨storeSet st.store key ((st.lookup key).filter (fun m => m != member))⟩
  else st

/-- `SCARD key`: cardinality of the set, 0 if absent. -/
def RedisState.scard (st : RedisState) (key : String) : Nat :=
  (st.lookup key).length

/-- `DEL key`. -/
def RedisState.delete (st : RedisState) (key : String) : RedisState :=
  ⟨st.store.filter (fun kv => kv.1 != key)⟩

/-- The presence key `user:{user_id}:sockets`. -/
def socketKey (user_id : String) : String :=
  "user:" ++ user_id ++ ":sockets"

/-- `RedisService.add_socket` (the `expire` safety net is not modelled). -/
def addSocket (st : RedisState) (user_id socket_id : String) : RedisState :=
  st.sadd (socketKey user_id) socket_id

/-- `RedisService.remove_socket`: `SREM`, then delete the key when the
set has become empty. -/
def removeSocket (st : RedisState) (user_id socket_id : String) : RedisState :=
  let st1 := st.srem (socketKey user_id) socket_id
  if st1.scard (socketKey user_id) == 0 then st1.delete (socketKey user_id)
  else st1

/-- `RedisService.is_user_online`: `SCARD > 0`. -/
def isUserOnline (st : RedisState) (user_id : String) : Bool :=
  st.scard (socketKey user_id) > 0

/-- A connect (`add_socket`) or disconnect (`remove_socket`) call for one
principal, as issued by the websocket `ConnectionManager`. -/
inductive SockOp
  | connect (socket_id : String)
  | disconnect (socket_id : String)
deriving DecidableEq, Repr

/-- Replay a sequence of connect/disconnect calls for `user_id` against
the Redis model. -/
def replayOps (user_id : String) (st : RedisState) : List SockOp → RedisState
  | [] => st
  | .connect sid :: rest => replayOps user_id (addSocket st user_id sid) rest
  | .disconnect sid :: rest => replayOps user_id (removeSocket st user_id sid) rest

/-- Specification-side bookkeeping: the set of connections currently
open after a prefix of operations, starting from `cur`. -/
def openFrom (cur : List String) : List SockOp → List String
  | [] => cur
  | .connect sid :: rest =>
    openFrom (if sid ∈ cur then cur else cur ++ [sid]) rest
  | .disconnect sid :: rest =>
    openFrom (cur.filter (fun m => m != sid)) rest

/-- The set of currently-open connections after a sequence of
connect/disconnect operations. -/
def openConnections (ops : List SockOp) : List String :=
  openFrom [] ops

/-- The empty Redis keyspace. -/
def initialRedis : RedisState := ⟨[]⟩

/-! ## Notification consumer model (`notification_consumer.py`) -/

/-- `NotificationType` enum (the routing keys the consumer binds). -/
inductive NotificationType
  | POST_LIKED
  | POST_COMMENTED
  | POST_SHARED
  | MENTIONED
  | REPLY_THREAD
deriving DecidableEq, Repr

/-- The `ROUTING_KEY_TO_TYPE` table. -/
def routingKeyToType (rk : String) : Option NotificationType :=
  if rk == "post.liked" then some .POST_LIKED
  else if rk == "post.commented" then some .POST_COMMENTED
  else if rk == "post.shared" then some .POST_SHARED
  else if rk == "comment.mentioned" then some .MENTIONED
  else if rk == "comment.replied" then some .REPLY_THREAD
  else none

/-- A decoded event body as read by `_process_message` (`body.get(...)`
yields `none` for an absent field). -/
structure NotifEvent where
  routing_key : String
  actor_id : Option String
  user_id : Option String
  post_id : Option String
  comment_id : Option String
deriving DecidableEq, Repr

/-- `Notification` document (fields the consumer writes). -/
structure Notification where
  id : Nat
  user_id : String
  actor_id : String
  type : NotificationType
  post_id : Option String
  comment_id : Option String
  content : String
deriving DecidableEq, Repr

/-- Read-only environment of the consumer: the user collection (actor
lookup) and the Redis presence check. -/
structure NotifEnv where
  usernameOf : String → Option String
  onlineUsers : String → Bool

/-- Consumer-visible state: persisted notifications and the payloads
published to the relay, plus the fresh-id counter. -/
structure ConsumerState where
  notifications : List Notification
  relayPublished : List (String × Nat)
  nextId : Nat

/-- `NotificationConsumer._generate_content`. -/
def generateContent (t : NotificationType) (actor_username : String) : String :=
  match t with
  | .POST_LIKED => actor_username ++ " đã thích bài viết của bạn"
  | .POST_COMMENTED => actor_username ++ " đã bình luận bài viết của bạn"
  | .POST_SHARED => actor_username ++ " đã chia sẻ bài viết của bạn"
  | .MENTIONED => actor_username ++ " đã nhắc đến bạn trong một bình luận"
  | .REPLY_THREAD => actor_username ++ " đã trả lời bình luận của bạn"

/-- `NotificationConsumer._process_message`: unknown routing keys,
missing (falsy) actor/recipient ids, and self-notifications return
without writing; otherwise persist a `Notification` and, when the
recipient is online, publish it to the relay. -/
def processMessage (env : NotifEnv) (st : ConsumerState) (ev : NotifEvent) :
    ConsumerState :=
  match routingKeyToType ev.routing_key with
  | none => st
  | some ntype =>
    if !(optTruthy ev.actor_id) || !(optTruthy ev.user_id) then st
    else if ev.actor_id == ev.user_id then st
    else
      match ev.actor_id, ev.user_id with
      | some actor_id, some user_id =>
        let actor_username := (env.usernameOf actor_id).getD "Someone"
        let content := generateContent ntype actor_username
        let notification : Notification :=
          { id := st.nextId
            user_id := user_id
            actor_id := actor_id
            type := ntype
            post_id := ev.post_id
            comment_id := ev.comment_id
            content := content }
        let st1 : ConsumerState :=
          { st with
            notifications := st.notifications ++ [notification]
            nextId := st.nextId + 1 }
        if env.onlineUsers user_id then
          { st1 with relayPublished := st1.relayPublished ++ [(user_id, notification.id)] }
        else st1
      | _, _ => st

/-! ## Relay listener backoff model (`redis_client.py` listeners)

Both `subscribe_user_notifications` and `subscribe_all_notifications`
run the same loop: `while retry_count < max_retries`, an inner listen;
a received message resets `retry_count` to 0; an exception increments
`retry_count`, sleeps `min(base_delay * 2 ** retry_count, 30)` seconds
(with the already-incremented count), attempts to resubscribe, and
re-enters the loop; when `retry_count` reaches `max_retries` the loop
exits and a terminal failure is logged. -/

/-- `base_delay = 1` second. -/
def baseDelay : Nat := 1

/-- `max_retries = 10`. -/
def maxRetries : Nat := 10

/-- An observable event inside a listener loop: a successfully delivered
message, or an exception from the broker connection. -/
inductive LEvent
  | msg
  | fail
deriving DecidableEq, Repr

/-- Run the listener loop over a trace of events, starting from retry
count `rc`.  Returns the sleep delays emitted (one per handled failure,
each followed by a resubscription attempt) and the final retry count;
the loop stops consuming events once `rc` reaches `maxRetries`. -/
def listenerRun (rc : Nat) : List LEvent → List Nat × Nat
  | [] => ([], rc)
  | e :: es =>
    if rc < maxRetries then
      match e with
      | .msg => listenerRun 0 es
      | .fail =>
        let r := listenerRun (rc + 1) es
        (min (baseDelay * 2 ^ (rc + 1)) 30 :: r.1, r.2)
    else ([], rc)

/-- Modelled from the spec: the delay sequence the claim asserts —
capped exponential backoff "starting at 1 second and doubling
(1s, 2s, 4s, ...) with a 30-second cap". -/
def claimedDelays (n : Nat) : List Nat :=
  (List.range n).map (fun k => min (2 ^ k) 30)

/-! ## Websocket `SEND_MESSAGE` handler model (`websocket.py`) -/

/-- A frame sent back to the sender by `handle_client_message` while
handling `SEND_MESSAGE`. -/
inductive ServerFrame
  | messageAck (tempId : Option String) (messageId : Nat) (status : String)
  | errorFrame (message : String)
deriving DecidableEq, Repr

/-- The fields `handle_client_message` reads from an inbound
`SEND_MESSAGE` frame (`message.get(...)`; a missing `conversationId` is
`none`). -/
structure SendMessageFrame where
  conversationId : Option Nat
  content : Option String
  media : List MediaAttachment
  tempId : Option String
  replyToMessageId : Option Nat
deriving DecidableEq, Repr

/-- The `SEND_MESSAGE` branch of `handle_client_message`.  `publishOk`
models whether the RabbitMQ publish after persistence raises (any such
exception is caught and answered with a generic `ERROR` frame).
Returns the frames sent to the sender, the resulting store, and whether
the handler leaves the connection open. -/
def handleSendMessage (db : DB) (user_id : String) (frame : SendMessageFrame)
    (publishOk : Bool) (now : Nat) : List ServerFrame × DB × Bool :=
  match frame.conversationId with
  | none =>
    ([.errorFrame "Invalid message: missing conversationId or content/media"], db, true)
  | some cid =>
    if !(optTruthy frame.content) && frame.media.isEmpty then
      ([.errorFrame "Invalid message: missing conversationId or content/media"], db, true)
    else
      match sendMessage db cid user_id
        { content := frame.content
          media := frame.media
          reply_to_message_id := frame.replyToMessageId } now with
      | (.error e, db1) => ([.errorFrame e], db1, true)
      | (.ok msg, db1) =>
        if publishOk then
          ([.messageAck frame.tempId msg.id "SENT"], db1, true)
        else
          ([.errorFrame "Failed to send message"], db1, true)

/-! ## Helper lemmas -/

lemma updateFirst_length {α : Type} (p : α → Bool) (f : α → α) (l : List α) :
    (updateFirst p f l).length = l.length := by
  induction l with
  | nil => rfl
  | cons x xs ih =>
    unfold updateFirst
    by_cases h : p x <;> simp [h, ih]

lemma updateFirst_get {α : Type} (p : α → Bool) (f : α → α) :
    ∀ (l : List α) (j : Nat) (hj : j < l.length), p (l.get ⟨j, hj⟩) = true →
      (∀ k (hk : k < l.length), k < j → p (l.get ⟨k, hk⟩) = false) →
      ∀ (i : Nat) (hi : i < l.length) (hi2 : i < (updateFirst p f l).length),
        (updateFirst p f l).get ⟨i, hi2⟩ =
          if i = j then f (l.get ⟨i, hi⟩) else l.get ⟨i, hi⟩ := by
  intro l
  induction l with
  | nil => intro j hj; exact absurd hj (by simp)
  | cons x xs ih =>
    intro j hj hpj hfirst i hi hi2
    by_cases hpx : p x
    · have hj0 : j = 0 := by
        cases j with
        | zero => rfl
        | succ j' => exact absurd hpx (by simpa using hfirst 0 (by simp) (Nat.succ_pos j'))
      subst hj0
      cases i with
      | zero => simp [updateFirst, hpx]
      | succ i' => simp [updateFirst, hpx]
    · cases j with
      | zero => exact absurd (by simpa using hpj) (by simpa using hpx)
      | succ j' =>
        cases i with
        | zero => simp [updateFirst, hpx]
        | succ i' =>
          have hj' : j' < xs.length := by simpa using hj
          have hpj' : p (xs.get ⟨j', hj'⟩) = true := by simpa using hpj
          have hfirst' : ∀ k (hk : k < xs.length), k < j' →
              p (xs.get ⟨k, hk⟩) = false := by
            intro k hk hkj
            simpa using hfirst (k + 1) (by simpa using hk) (by omega)
          have hi' : i' < xs.length := by simpa using hi
          have hi2' : i' < (updateFirst p f xs).length := by
            simpa [updateFirst, hpx, updateFirst_length] using hi2
          have hrec := ih j' hj' hpj' hfirst' i' hi' hi2'
          simpa [updateFirst, hpx] using hrec

lemma updateFirst_get_or {α : Type} (p : α → Bool) (f : α → α) :
    ∀ (l : List α) (i : Nat) (hi : i < l.length)
      (hi2 : i < (updateFirst p f l).length),
      (updateFirst p f l).get ⟨i, hi2⟩ = l.get ⟨i, hi⟩ ∨
      (updateFirst p f l).get ⟨i, hi2⟩ = f (l.get ⟨i, hi⟩) := by
  intro l
  induction l with
  | nil => intro i hi; exact absurd hi (by simp)
  | cons x xs ih =>
    intro i hi hi2
    by_cases hpx : p x
    · cases i with
      | zero => right; simp [updateFirst, hpx]
      | succ i' => left; simp [updateFirst, hpx]
    · cases i with
      | zero => left; simp [updateFirst, hpx]
      | succ i' =>
        have hrec := ih i' (by simpa using hi)
          (by simpa [updateFirst, hpx, updateFirst_length] using hi2)
        simpa [updateFirst, hpx] using hrec

/-! ## C10: send_message with a non-participant sender -/

/-- C10.  If the sender is not an active participant of the
conversation, `send_message` raises `ValueError("User is not a
participant in this conversation")` before any write: no message is
inserted, no unread counter is incremented, and the conversation's
last-message preview fields are untouched (the whole store is returned
unchanged). -/
theorem send_message_nonparticipant_error (db : DB) (cid : Nat) (sender : String)
    (data : MessageCreate) (now : Nat)
    (h : isParticipant db cid sender = false) :
    sendMessage db cid sender data now =
      (.error "User is not a participant in this conversation", db) := by
  simp [sendMessage, h]

/-- A participant record for "bob" in conversation 5, used by witnesses. -/
def participantBob : ConversationParticipant :=
  { id := 0, conversation_id := 5, user_id := "bob", role := .MEMBER,
    last_seen_message_id := none, unread_count := 0, muted := false,
    joined_at := 0, left_at := none }

/-- A store whose only participant record is `participantBob`. -/
def dbBobOnly : DB :=
  { conversations := [], participants := [participantBob], messages := [], nextId := 1 }

/-- Witness for C10 at a concrete store: a store containing one
conversation-5 participant record for "bob" only, with "alice" sending. -/
theorem send_message_nonparticipant_error_witness :
    sendMessage dbBobOnly 5 "alice"
        { content := some "hi", media := [], reply_to_message_id := none } 3 =
      (.error "User is not a participant in this conversation", dbBobOnly) :=
  send_message_nonparticipant_error dbBobOnly 5 "alice" _ 3 (by decide)

/-! ## C5: no self-notifications -/

/-- C5.  An event whose actor equals its recipient leaves the consumer
state unchanged: no `Notification` is persisted and nothing is published
to the relay. -/
theorem no_self_notification (env : NotifEnv) (st : ConsumerState) (ev : NotifEvent)
    (h : ev.actor_id = ev.user_id) :
    processMessage env st ev = st := by
  unfold processMessage
  split
  · rfl
  · rw [h]
    by_cases ht : optTruthy ev.user_id <;> simp [ht]

/-- Witness for C5 at a concrete event ("post.liked" by user "u7" about
user "u7", with the recipient online and present in the user table). -/
theorem no_self_notification_witness :
    processMessage
        { usernameOf := fun _ => some "seven", onlineUsers := fun _ => true }
        { notifications := [], relayPublished := [], nextId := 0 }
        { routing_key := "post.liked", actor_id := some "u7", user_id := some "u7",
          post_id := some "p1", comment_id := none } =
      { notifications := [], relayPublished := [], nextId := 0 } :=
  no_self_notification _ _ _ rfl

/-! ## C8: SEND_MESSAGE always gets exactly one ACK or ERROR frame -/

/-- C8.  Handling an inbound `SEND_MESSAGE` frame leaves the connection
open and sends the sender exactly one response frame, and the frame is
determined by the outcome: the missing-field check answers the fixed
invalid-message `ERROR`; a `ValueError` from `send_message` (sender not
a participant) answers an `ERROR` carrying that error's text and the
store `send_message` left behind; and when `send_message` persists a
message, the sender gets `MESSAGE_ACK` carrying that very message's id
and the echoed `tempId` if the follow-up publish succeeds, or the
generic failure `ERROR` if it raises — never an `ERROR` on a fully
successful send, never an `ACK` on a failed one. -/
theorem send_message_frame_ack_or_error (db : DB) (user_id : String)
    (frame : SendMessageFrame) (publishOk : Bool) (now : Nat) :
    (handleSendMessage db user_id frame publishOk now).2.2 = true ∧
    (∃ f, (handleSendMessage db user_id frame publishOk now).1 = [f]) ∧
    (frame.conversationId = none →
      (handleSendMessage db user_id frame publishOk now).1
        = [.errorFrame "Invalid message: missing conversationId or content/media"]) ∧
    (∀ cid, frame.conversationId = some cid →
      (!(optTruthy frame.content) && frame.media.isEmpty) = true →
      (handleSendMessage db user_id frame publishOk now).1
        = [.errorFrame "Invalid message: missing conversationId or content/media"]) ∧
    (∀ cid, frame.conversationId = some cid →
      (!(optTruthy frame.content) && frame.media.isEmpty) = false →
      ∀ e db1,
        sendMessage db cid user_id
          { content := frame.content, media := frame.media,
            reply_to_message_id := frame.replyToMessageId } now = (.error e, db1) →
        (handleSendMessage db user_id frame publishOk now).1 = [.errorFrame e]) ∧
    (∀ cid, frame.conversationId = some cid →
      (!(optTruthy frame.content) && frame.media.isEmpty) = false →
      ∀ msg db1,
        sendMessage db cid user_id
          { content := frame.content, media := frame.media,
            reply_to_message_id := frame.replyToMessageId } now = (.ok msg, db1) →
        (handleSendMessage db user_id frame publishOk now).1
          = if publishOk then [.messageAck frame.tempId msg.id "SENT"]
            else [.errorFrame "Failed to send message"]) := by
  cases hcid : frame.conversationId with
  | none =>
    have hH : handleSendMessage db user_id frame publishOk now
        = ([.errorFrame "Invalid message: missing conversationId or content/media"],
            db, true) := by
      simp [handleSendMessage, hcid]
    rw [hH]
    refine ⟨rfl, ⟨_, rfl⟩, fun _ => rfl, ?_, ?_, ?_⟩ <;>
      exact fun cid hc => Option.noConfusion hc
  | some cid0 =>
    by_cases hval : (!(optTruthy frame.content) && frame.media.isEmpty) = true
    · have hH : handleSendMessage db user_id frame publishOk now
          = ([.errorFrame "Invalid message: missing conversationId or content/media"],
              db, true) := by
        simp [handleSendMessage, hcid, hval]
      rw [hH]
      exact ⟨rfl, ⟨_, rfl⟩, fun h => Option.noConfusion h, fun cid hc hv => rfl,
        fun cid hc hv => absurd hval (by simp [hv]),
        fun cid hc hv => absurd hval (by simp [hv])⟩
    · cases hsend : sendMessage db cid0 user_id
          { content := frame.content, media := frame.media,
            reply_to_message_id := frame.replyToMessageId } now with
      | mk res db1 =>
        cases res with
        | error e =>
          have hH : handleSendMessage db user_id frame publishOk now
              = ([.errorFrame e], db1, true) := by
            simp [handleSendMessage, hcid, hval, hsend]
          rw [hH]
          refine ⟨rfl, ⟨_, rfl⟩, fun h => Option.noConfusion h,
            fun cid hc hv => absurd hv hval, ?_, ?_⟩
          · intro cid hc hv e2 db2 hsend2
            injection hc with h
            subst h
            rw [hsend] at hsend2
            simp only [Prod.mk.injEq, Except.error.injEq] at hsend2
            obtain ⟨he, -⟩ := hsend2
            rw [he]
          · intro cid hc hv msg db2 hsend2
            injection hc with h
            subst h
            rw [hsend] at hsend2
            exact absurd hsend2 (by simp)
        | ok msg =>
          have hH : handleSendMessage db user_id frame publishOk now
              = (if publishOk then [ServerFrame.messageAck frame.tempId msg.id "SENT"]
                  else [.errorFrame "Failed to send message"], db1, true) := by
            cases publishOk <;> simp [handleSendMessage, hcid, hval, hsend]
          rw [hH]
          refine ⟨rfl, ?_, fun h => Option.noConfusion h,
            fun cid hc hv => absurd hv hval, ?_, ?_⟩
          · cases publishOk <;> exact ⟨_, rfl⟩
          · intro cid hc hv e2 db2 hsend2
            injection hc with h
            subst h
            rw [hsend] at hsend2
            exact absurd hsend2 (by simp)
          · intro cid hc hv msg2 db2 hsend2
            injection hc with h
            subst h
            rw [hsend] at hsend2
            simp only [Prod.mk.injEq, Except.ok.injEq] at hsend2
            obtain ⟨hm, -⟩ := hsend2
            subst hm
            rfl

/-! ## C7: relay listener backoff -/

/-- Delays and final retry count produced by a run of `n` consecutive
failures from retry count `rc`: the k-th handled failure (0-based,
relative to `rc`) sleeps `min(base_delay * 2 ** (rc + k + 1), 30)`
seconds, and the count stops growing at `maxRetries`. -/
lemma listenerRun_replicate_fail (n : Nat) :
    ∀ rc, rc ≤ maxRetries →
      listenerRun rc (List.replicate n LEvent.fail) =
        ((List.range (min n (maxRetries - rc))).map
            (fun k => min (baseDelay * 2 ^ (rc + (k + 1))) 30),
          min (rc + n) maxRetries) := by
  induction n with
  | zero => intro rc h; simp [listenerRun, Nat.min_eq_left h]
  | succ n ih =>
    intro rc h
    rw [List.replicate_succ]
    by_cases hrc : rc < maxRetries
    · simp only [listenerRun, if_pos hrc]
      rw [ih (rc + 1) hrc]
      have hm : min (n + 1) (maxRetries - rc) = min n (maxRetries - (rc + 1)) + 1 := by
        omega
      rw [hm, List.range_succ_eq_map, List.map_cons, List.map_map]
      refine congrArg₂ Prod.mk ?_ ?_
      · congr 1
        apply List.map_congr_left
        intro k _
        simp only [Function.comp]
        have hx : rc + 1 + (k + 1) = rc + (Nat.succ k + 1) := by omega
        rw [hx]
      · omega
    · have hrc10 : rc = maxRetries := by omega
      simp only [listenerRun, if_neg hrc]
      rw [hrc10]
      simp [Nat.sub_self, Nat.min_eq_right (Nat.le_add_right _ _)]

/-- Modelled from the spec: what the claim asserts would need the first
delay to be 1 second.  In the code the delay is computed from the
already-incremented retry count, so the first sleep is 2 seconds: the
claimed sequence 1s, 2s, 4s, ... is not what the listener does. -/
theorem listener_backoff_counterexample :
    (listenerRun 0 (List.replicate 3 LEvent.fail)).1 = [2, 4, 8] ∧
    claimedDelays 3 = [1, 2, 4] ∧
    (listenerRun 0 (List.replicate 3 LEvent.fail)).1 ≠ claimedDelays 3 := by
  decide

/-- C7 (amended).  Over `n` consecutive transient failures, the listener
sleeps `min(2 ** k, 30)` seconds before the k-th (1-based)
resubscription attempt — 2s, 4s, 8s, 16s, then capped at 30s — and
stops retrying once the retry count reaches the bounded budget
`max_retries = 10`, at which point the terminal failure is logged. -/
theorem listener_backoff_delays (n : Nat) :
    listenerRun 0 (List.replicate n LEvent.fail) =
      ((List.range (min n maxRetries)).map
          (fun k => min (baseDelay * 2 ^ (k + 1)) 30),
        min n maxRetries) := by
  have h := listenerRun_replicate_fail n 0 (by omega)
  simpa using h

/-! ## C1: send_message increments unread counters of other active participants -/

/-- C1.  When `send_message` succeeds (the sender is an active
participant), every participant record of the conversation belonging to
a different user with `left_at == None` has its unread counter
incremented by exactly 1, and every other record — in particular every
record of the sender — keeps its unread counter unchanged. -/
theorem send_message_unread_increment (db : DB) (cid : Nat) (sender : String)
    (data : MessageCreate) (now : Nat) (msg : Message) (db2 : DB)
    (h : sendMessage db cid sender data now = (.ok msg, db2)) :
    db2.participants.length = db.participants.length ∧
    ∀ i (hi : i < db.participants.length) (hi2 : i < db2.participants.length),
      (db2.participants.get ⟨i, hi2⟩).unread_count =
        if (db.participants.get ⟨i, hi⟩).conversation_id = cid
            ∧ (db.participants.get ⟨i, hi⟩).user_id ≠ sender
            ∧ (db.participants.get ⟨i, hi⟩).left_at = none
        then (db.participants.get ⟨i, hi⟩).unread_count + 1
        else (db.participants.get ⟨i, hi⟩).unread_count := by
  unfold sendMessage at h
  by_cases hp : isParticipant db cid sender
  · simp only [hp, Bool.not_true, Bool.false_eq_true, if_false, Prod.mk.injEq,
      Except.ok.injEq] at h
    obtain ⟨-, hdb⟩ := h
    subst hdb
    refine ⟨by simp, ?_⟩
    intro i hi hi2
    by_cases h1 : (db.participants.get ⟨i, hi⟩).conversation_id = cid <;>
      by_cases h2 : (db.participants.get ⟨i, hi⟩).user_id = sender <;>
      by_cases h3 : (db.participants.get ⟨i, hi⟩).left_at = none <;>
      simp [List.get_eq_getElem, List.getElem_map] at h1 h2 h3 ⊢ <;>
      simp [h1, h2, h3]
  · simp [hp] at h

/-- Active participant "alice" of conversation 5 (witness fixture). -/
def wParticipantAlice : ConversationParticipant :=
  { id := 10, conversation_id := 5, user_id := "alice", role := .MEMBER,
    last_seen_message_id := none, unread_count := 0, muted := false,
    joined_at := 0, left_at := none }

/-- Active participant "bob" of conversation 5 with 2 unread messages
(witness fixture). -/
def wParticipantBob : ConversationParticipant :=
  { id := 11, conversation_id := 5, user_id := "bob", role := .MEMBER,
    last_seen_message_id := none, unread_count := 2, muted := false,
    joined_at := 0, left_at := none }

/-- Former participant "carol" of conversation 5, who left at time 9
(witness fixture). -/
def wParticipantCarol : ConversationParticipant :=
  { id := 12, conversation_id := 5, user_id := "carol", role := .MEMBER,
    last_seen_message_id := none, unread_count := 0, muted := false,
    joined_at := 0, left_at := some 9 }

/-- Witness store: conversation 5 with alice and bob active and carol
left. -/
def wDB : DB :=
  { conversations := [],
    participants := [wParticipantAlice, wParticipantBob, wParticipantCarol],
    messages := [], nextId := 20 }

/-- The message alice sends in the C1 witness. -/
def wMsg : Message :=
  { id := 20, conversation_id := 5, sender_id := "alice", content := some "hi",
    type := .TEXT, media := [], status := .SENT, reply_to_message_id := none,
    created_at := 7, updated_at := none, deleted_at := none }

/-- The store after the C1 witness send: bob's counter went 2 -> 3,
alice's and carol's are unchanged. -/
def wDB2 : DB :=
  { conversations := [],
    participants := [wParticipantAlice,
      { wParticipantBob with unread_count := 3 }, wParticipantCarol],
    messages := [wMsg], nextId := 21 }

/-- Witness for C1: alice sends "hi" in conversation 5; the theorem is
applied at index 1 (bob's record). -/
theorem send_message_unread_increment_witness :
    wDB2.participants.length = wDB.participants.length ∧
    (wDB2.participants.get ⟨1, by decide⟩).unread_count =
      (if (wDB.participants.get ⟨1, by decide⟩).conversation_id = 5
          ∧ (wDB.participants.get ⟨1, by decide⟩).user_id ≠ "alice"
          ∧ (wDB.participants.get ⟨1, by decide⟩).left_at = none
        then (wDB.participants.get ⟨1, by decide⟩).unread_count + 1
        else (wDB.participants.get ⟨1, by decide⟩).unread_count) := by
  have h := send_message_unread_increment wDB 5 "alice"
    { content := some "hi", media := [], reply_to_message_id := none } 7 wMsg wDB2 rfl
  exact ⟨h.1, h.2 1 (by decide) (by decide)⟩

/-! ## C2: mark_conversation_seen resets only the marking participant -/

/-- C2.  `mark_conversation_seen(cid, uid, M)` rewrites the (first)
participant record matching `(cid, uid)` to have `unread_count = 0` and
`last_seen_message_id = M`, and leaves every other participant record
entirely unchanged. -/
theorem mark_seen_resets_marker_only (db : DB) (cid : Nat) (uid : String)
    (mid : Nat) (j : Nat) (hj : j < db.participants.length)
    (hpj : participantKey cid uid (db.participants.get ⟨j, hj⟩) = true)
    (hfirst : ∀ k (hk : k < db.participants.length), k < j →
      participantKey cid uid (db.participants.get ⟨k, hk⟩) = false) :
    (markConversationSeen db cid uid mid).participants.length
        = db.participants.length ∧
    ∀ i (hi : i < db.participants.length)
      (hi2 : i < (markConversationSeen db cid uid mid).participants.length),
      (markConversationSeen db cid uid mid).participants.get ⟨i, hi2⟩ =
        if i = j then
          { db.participants.get ⟨i, hi⟩ with
              last_seen_message_id := some mid, unread_count := 0 }
        else db.participants.get ⟨i, hi⟩ := by
  have hany : db.participants.any (participantKey cid uid) = true :=
    List.any_eq_true.mpr ⟨db.participants.get ⟨j, hj⟩, List.get_mem _ _ _, hpj⟩
  constructor
  · simp [markConversationSeen, hany, updateFirst_length]
  · intro i hi hi2
    have hi2' : i < (updateFirst (participantKey cid uid)
        (fun p => { p with last_seen_message_id := some mid, unread_count := 0 })
        db.participants).length := by
      simpa [markConversationSeen, hany] using hi2
    have h := updateFirst_get (participantKey cid uid)
      (fun p => { p with last_seen_message_id := some mid, unread_count := 0 })
      db.participants j hj hpj hfirst i hi hi2'
    simpa [markConversationSeen, hany] using h

/-- Witness for C2: bob marks conversation 5 seen at message 42 in the
witness store; the theorem is applied at indices 1 (bob) and 0 (alice). -/
theorem mark_seen_resets_marker_only_witness :
    (markConversationSeen wDB 5 "bob" 42).participants.length
        = wDB.participants.length ∧
    ((markConversationSeen wDB 5 "bob" 42).participants.get ⟨1, by decide⟩ =
      if 1 = 1 then
        { wDB.participants.get ⟨1, by decide⟩ with
            last_seen_message_id := some 42, unread_count := 0 }
      else wDB.participants.get ⟨1, by decide⟩) ∧
    ((markConversationSeen wDB 5 "bob" 42).participants.get ⟨0, by decide⟩ =
      if 0 = 1 then
        { wDB.participants.get ⟨0, by decide⟩ with
            last_seen_message_id := some 42, unread_count := 0 }
      else wDB.participants.get ⟨0, by decide⟩) := by
  have h := mark_seen_resets_marker_only wDB 5 "bob" 42 1 (by decide) (by decide)
    (by decide)
  exact ⟨h.1, h.2 1 (by decide) (by decide), h.2 0 (by decide) (by decide)⟩

/-! ## C9: mark_conversation_seen ignores message_id and left_at -/

/-- C9.  Provided a participant record for `(cid, uid)` exists — active
or not (`left_at` may be set) — `mark_conversation_seen` sets the status
of every message of the conversation whose sender is not `uid` to
`SEEN`, whatever the `message_id` argument is (it appears nowhere in
the message update filter, so messages created after it are updated
too). -/
theorem mark_seen_updates_all_other_messages (db : DB) (cid : Nat) (uid : String)
    (mid : Nat)
    (hex : ∃ p ∈ db.participants, p.conversation_id = cid ∧ p.user_id = uid) :
    (markConversationSeen db cid uid mid).messages.length = db.messages.length ∧
    ∀ i (hi : i < db.messages.length)
      (hi2 : i < (markConversationSeen db cid uid mid).messages.length),
      ((markConversationSeen db cid uid mid).messages.get ⟨i, hi2⟩).status =
        if (db.messages.get ⟨i, hi⟩).conversation_id = cid
            ∧ (db.messages.get ⟨i, hi⟩).sender_id ≠ uid
        then MessageStatus.SEEN
        else (db.messages.get ⟨i, hi⟩).status := by
  obtain ⟨p, hp, h1, h2⟩ := hex
  have hany : db.participants.any (participantKey cid uid) = true :=
    List.any_eq_true.mpr ⟨p, hp, by simp [participantKey, h1, h2]⟩
  constructor
  · simp [markConversationSeen, hany]
  · intro i hi hi2
    by_cases hc1 : (db.messages.get ⟨i, hi⟩).conversation_id = cid <;>
      by_cases hc2 : (db.messages.get ⟨i, hi⟩).sender_id = uid <;>
      by_cases hc3 : (db.messages.get ⟨i, hi⟩).status = MessageStatus.SEEN <;>
      simp [List.get_eq_getElem] at hc1 hc2 hc3 ⊢ <;>
      simp [markConversationSeen, hany, List.getElem_map, hc1, hc2, hc3]

/-- A `SENT` message from alice in conversation 5, with id above the
mark-seen cursor used in the C9 witness. -/
def wMsgAlice : Message :=
  { id := 200, conversation_id := 5, sender_id := "alice", content := some "yo",
    type := .TEXT, media := [], status := .SENT, reply_to_message_id := none,
    created_at := 50, updated_at := none, deleted_at := none }

/-- A `DELIVERED` message from carol in conversation 5 (C9 witness). -/
def wMsgCarol : Message :=
  { id := 201, conversation_id := 5, sender_id := "carol", content := some "hm",
    type := .TEXT, media := [], status := .DELIVERED, reply_to_message_id := none,
    created_at := 51, updated_at := none, deleted_at := none }

/-- C9 witness store: carol has left conversation 5, which holds a
message from alice (id 200) and one from carol (id 201). -/
def wDB9 : DB :=
  { conversations := [], participants := [wParticipantCarol],
    messages := [wMsgAlice, wMsgCarol], nextId := 300 }

/-- Witness for C9: carol — who has `left_at = some 9` — marks
conversation 5 seen at message id 100; alice's message with the larger
id 200 is the instantiated index. -/
theorem mark_seen_updates_all_other_messages_witness :
    (markConversationSeen wDB9 5 "carol" 100).messages.length
        = wDB9.messages.length ∧
    ((markConversationSeen wDB9 5 "carol" 100).messages.get ⟨0, by decide⟩).status =
      (if (wDB9.messages.get ⟨0, by decide⟩).conversation_id = 5
          ∧ (wDB9.messages.get ⟨0, by decide⟩).sender_id ≠ "carol"
        then MessageStatus.SEEN
        else (wDB9.messages.get ⟨0, by decide⟩).status) := by
  have h := mark_seen_updates_all_other_messages wDB9 5 "carol" 100 (by decide)
  exact ⟨h.1, h.2 0 (by decide) (by decide)⟩

/-! ## C6: message status never regresses -/

lemma statusRank_le_two (s : MessageStatus) : statusRank s ≤ 2 := by
  cases s <;> simp [statusRank]

/-- C6.  Across the operations that create messages or touch a message's
status — `send_message`, the `MESSAGE_DELIVERED` handler and
`mark_conversation_seen` — existing messages only move forward along
`SENT -> DELIVERED -> SEEN` (their rank never decreases), and every
newly appended message starts in `SENT`. -/
theorem message_status_monotonic (db : DB) (op : MessagingOp) :
    db.messages.length ≤ (applyOp db op).messages.length ∧
    (∀ i (hi : i < db.messages.length) (hi2 : i < (applyOp db op).messages.length),
      statusRank (db.messages.get ⟨i, hi⟩).status ≤
        statusRank ((applyOp db op).messages.get ⟨i, hi2⟩).status) ∧
    (∀ i (hi2 : i < (applyOp db op).messages.length), db.messages.length ≤ i →
      ((applyOp db op).messages.get ⟨i, hi2⟩).status = MessageStatus.SENT) := by
  cases op with
  | send cid sid data now =>
    by_cases hp : isParticipant db cid sid
    · have hmsg : (applyOp db (.send cid sid data now)).messages
          = db.messages ++
            [{ id := db.nextId, conversation_id := cid, sender_id := sid,
               content := data.content,
               type := computeMessageType data.content data.media,
               media := data.media, status := .SENT,
               reply_to_message_id := data.reply_to_message_id,
               created_at := now, updated_at := none, deleted_at := none }] := by
        simp [applyOp, sendMessage, hp]
      rw [hmsg]
      refine ⟨by simp, ?_, ?_⟩
      · intro i hi hi2
        rw [List.get_eq_getElem, List.get_eq_getElem, List.getElem_append_left hi]
      · intro i hi2 hge
        rw [List.get_eq_getElem, List.getElem_append_right hge]
        have h0 : i - db.messages.length = 0 := by
          simp only [List.length_append, List.length_cons, List.length_nil] at hi2
          omega
        simp only [h0]
        rfl
    · have heq : applyOp db (.send cid sid data now) = db := by
        simp [applyOp, sendMessage, hp]
      rw [heq]
      exact ⟨le_refl _, fun i hi hi2 => le_refl _, fun i hi2 hge => absurd hi2 (by omega)⟩
  | delivered mid =>
    cases mid with
    | none =>
      have heq : applyOp db (.delivered none) = db := rfl
      rw [heq]
      exact ⟨le_refl _, fun i hi hi2 => le_refl _, fun i hi2 hge => absurd hi2 (by omega)⟩
    | some m =>
      have hmsg : (applyOp db (.delivered (some m))).messages
          = updateFirst (fun x => x.id == m)
              (fun x => if x.status == MessageStatus.SENT
                then { x with status := .DELIVERED } else x)
              db.messages := by
        simp [applyOp, handleMessageDelivered]
      rw [hmsg]
      refine ⟨by simp [updateFirst_length], ?_, ?_⟩
      · intro i hi hi2
        simp only [List.get_eq_getElem]
        rcases updateFirst_get_or (fun x => x.id == m)
            (fun x => if x.status == MessageStatus.SENT
              then { x with status := .DELIVERED } else x)
            db.messages i hi hi2 with h | h <;>
          simp only [List.get_eq_getElem] at h <;> rw [h]
        by_cases hs : db.messages[i].status = MessageStatus.SENT <;>
          simp [hs, statusRank]
      · intro i hi2 hge
        rw [updateFirst_length] at hi2
        omega
  | markSeen cid uid m =>
    by_cases hany : db.participants.any (participantKey cid uid)
    · have hmsg : (applyOp db (.markSeen cid uid m)).messages
          = db.messages.map (fun x =>
              if x.conversation_id == cid && x.sender_id != uid
                  && x.status != MessageStatus.SEEN
                then { x with status := .SEEN } else x) := by
        simp [applyOp, markConversationSeen, hany]
      rw [hmsg]
      refine ⟨by simp, ?_, ?_⟩
      · intro i hi hi2
        rw [List.get_eq_getElem, List.get_eq_getElem, List.getElem_map]
        by_cases hc : ((db.messages[i]).conversation_id == cid
            && (db.messages[i]).sender_id != uid
            && (db.messages[i]).status != MessageStatus.SEEN) = true
        · simp only [hc, if_true]
          exact statusRank_le_two _
        · simp [hc]
      · intro i hi2 hge
        rw [List.length_map] at hi2
        omega
    · have heq : applyOp db (.markSeen cid uid m) = db := by
        simp [applyOp, markConversationSeen, hany]
      rw [heq]
      exact ⟨le_refl _, fun i hi hi2 => le_refl _, fun i hi2 hge => absurd hi2 (by omega)⟩

/-- Witness for C6 applied to a `MESSAGE_DELIVERED` event on the C9
witness store (the `SENT` message with id 200 moves to `DELIVERED`,
which does not lower its rank). -/
theorem message_status_monotonic_witness :
    statusRank (wDB9.messages.get ⟨0, by decide⟩).status ≤
      statusRank ((applyOp wDB9 (.delivered (some 200))).messages.get
        ⟨0, by decide⟩).status :=
  (message_status_monotonic wDB9 (.delivered (some 200))).2.1 0 (by decide) (by decide)

/-! ## C4: presence tracking -/

/-- The Redis keyspace holding exactly the presence set of one user,
empty when the set is. -/
def stateOf (user_id : String) (cur : List String) : RedisState :=
  if cur.isEmpty then ⟨[]⟩ else ⟨[(socketKey user_id, cur)]⟩

lemma lookup_stateOf (user_id : String) (cur : List String) :
    (stateOf user_id cur).lookup (socketKey user_id) = cur := by
  cases cur with
  | nil => simp [stateOf, RedisState.lookup]
  | cons a l => simp [stateOf, RedisState.lookup, List.find?]

lemma addSocket_stateOf (user_id sid : String) (cur : List String) :
    addSocket (stateOf user_id cur) user_id sid =
      stateOf user_id (if sid ∈ cur then cur else cur ++ [sid]) := by
  by_cases hmem : sid ∈ cur
  · simp only [addSocket, RedisState.sadd, lookup_stateOf]
    simp [hmem]
  · simp only [addSocket, RedisState.sadd, lookup_stateOf]
    cases cur with
    | nil => simp [stateOf, storeSet, hmem]
    | cons a l => simp [stateOf, storeSet, hmem]

lemma removeSocket_stateOf (user_id sid : String) (cur : List String) :
    removeSocket (stateOf user_id cur) user_id sid =
      stateOf user_id (cur.filter (fun m => m != sid)) := by
  cases cur with
  | nil =>
    simp [removeSocket, RedisState.srem, RedisState.scard, RedisState.lookup,
      RedisState.delete, stateOf]
  | cons a l =>
    by_cases hemp : (a :: l).filter (fun m => m != sid) = []
    · simp [removeSocket, RedisState.srem, RedisState.scard, RedisState.lookup,
        RedisState.delete, stateOf, storeSet, lookup_stateOf, hemp, List.find?]
    · simp [removeSocket, RedisState.srem, RedisState.scard, RedisState.lookup,
        RedisState.delete, stateOf, storeSet, lookup_stateOf, hemp, List.find?,
        List.length_eq_zero]

lemma replay_stateOf (user_id : String) (ops : List SockOp) :
    ∀ cur, replayOps user_id (stateOf user_id cur) ops
      = stateOf user_id (openFrom cur ops) := by
  induction ops with
  | nil => intro cur; rfl
  | cons op rest ih =>
    intro cur
    cases op with
    | connect sid =>
      simp only [replayOps, openFrom]
      rw [addSocket_stateOf]
      exact ih _
    | disconnect sid =>
      simp only [replayOps, openFrom]
      rw [removeSocket_stateOf]
      exact ih _

/-- C4.  After any sequence of `add_socket`/`remove_socket` calls for a
principal (starting from an empty keyspace), `is_user_online` returns
true exactly when at least one connection is still open — in particular
false as soon as the last one is removed — and removing a socket id
that is not currently registered is a no-op on the Redis state (no
error is modelled because none can be raised: `SREM` of an absent
member and `DEL` of an absent key are no-ops). -/
theorem presence_online_iff (user_id : String) (ops : List SockOp) :
    (isUserOnline (replayOps user_id initialRedis ops) user_id
        = !(openConnections ops).isEmpty) ∧
    ∀ sid, sid ∉ openConnections ops →
      removeSocket (replayOps user_id initialRedis ops) user_id sid
        = replayOps user_id initialRedis ops := by
  have hrep : replayOps user_id initialRedis ops
      = stateOf user_id (openConnections ops) := by
    have h := replay_stateOf user_id ops []
    simpa [stateOf, initialRedis, openConnections] using h
  constructor
  · rw [hrep]
    simp only [isUserOnline, RedisState.scard, lookup_stateOf]
    cases openConnections ops <;> simp
  · intro sid hnot
    rw [hrep, removeSocket_stateOf]
    have hfil : (openConnections ops).filter (fun m => m != sid)
        = openConnections ops :=
      List.filter_eq_self.mpr (fun a ha => by
        have : a ≠ sid := fun heq => hnot (heq ▸ ha)
        simpa using this)
    rw [hfil]

/-- Witness for C4: two connects and two disconnects for user "u" leave
the presence empty and `is_user_online` false; removing the
already-removed socket "s1" afterwards changes nothing. -/
theorem presence_online_iff_witness :
    (isUserOnline (replayOps "u" initialRedis
        [SockOp.connect "s1", SockOp.connect "s2", SockOp.disconnect "s1",
          SockOp.disconnect "s2"]) "u"
      = !(openConnections [SockOp.connect "s1", SockOp.connect "s2",
          SockOp.disconnect "s1", SockOp.disconnect "s2"]).isEmpty) ∧
    removeSocket (replayOps "u" initialRedis
        [SockOp.connect "s1", SockOp.connect "s2", SockOp.disconnect "s1",
          SockOp.disconnect "s2"]) "u" "s1"
      = replayOps "u" initialRedis
        [SockOp.connect "s1", SockOp.connect "s2", SockOp.disconnect "s1",
          SockOp.disconnect "s2"] := by
  have h := presence_online_iff "u"
    [SockOp.connect "s1", SockOp.connect "s2", SockOp.disconnect "s1",
      SockOp.disconnect "s2"]
  exact ⟨h.1, h.2 "s1" (by decide)⟩

/-! ## C3: DIRECT conversation creation is idempotent -/

/-- The `ConversationCreate` payload for a DIRECT chat with one other
participant. -/
def mkDirectCreate (other_user_id : String) : ConversationCreate :=
  { type := .DIRECT, participant_ids := [other_user_id], name := none,
    avatar_url := none }

/-- The conversation document created for a fresh DIRECT chat. -/
def directConv (db : DB) (now : Nat) : Conversation :=
  { id := db.nextId, type := .DIRECT, name := none, avatar_url := none,
    created_by := none, created_at := now, updated_at := now,
    last_message_id := none, last_message_content := none,
    last_message_at := none }

/-- The participant record created for the DIRECT-chat creator. -/
def directPartA (db : DB) (user_id : String) (now : Nat) : ConversationParticipant :=
  { id := db.nextId + 1, conversation_id := db.nextId, user_id := user_id,
    role := .MEMBER, last_seen_message_id := none, unread_count := 0,
    muted := false, joined_at := now, left_at := none }

/-- The participant record created for the DIRECT chat's other user. -/
def directPartB (db : DB) (user_id : String) (now : Nat) : ConversationParticipant :=
  { id := db.nextId + 2, conversation_id := db.nextId, user_id := user_id,
    role := .MEMBER, last_seen_message_id := none, unread_count := 0,
    muted := false, joined_at := now, left_at := none }

/-- The store produced by creating a fresh DIRECT conversation. -/
def directResultDB (db : DB) (creator other : String) (now : Nat) : DB :=
  { conversations := db.conversations ++ [directConv db now],
    participants :=
      (db.participants ++ [directPartA db creator now]) ++ [directPartB db other now],
    messages := db.messages,
    nextId := db.nextId + 3 }

lemma findDirectIn_append (db : DB) (Y : String)
    (l1 l2 : List ConversationParticipant) :
    findDirectIn db Y (l1 ++ l2) = (findDirectIn db Y l1).or (findDirectIn db Y l2) := by
  induction l1 with
  | nil => simp [findDirectIn]
  | cons p rest ih =>
    simp only [List.cons_append, findDirectIn]
    by_cases h : db.participants.any (participantMatches p.conversation_id Y) = true
    · simp only [h, if_true]
      cases hf : db.conversations.find? (directConvMatches p.conversation_id) with
      | some conv => rfl
      | none => exact ih
    · simp only [h, if_false]
      exact ih

/-- Appending a fresh DIRECT conversation and its fresh participant
records does not change the result of the `get_direct_conversation`
scan over participant records that reference only old conversations. -/
lemma findDirectIn_extend (db db1 : DB) (Y : String) (c : Conversation)
    (fresh : List ConversationParticipant)
    (hcid : c.id = db.nextId)
    (hfresh : ∀ p ∈ fresh, p.conversation_id = db.nextId)
    (hparts : db1.participants = db.participants ++ fresh)
    (hconvs : db1.conversations = db.conversations ++ [c]) :
    ∀ l : List ConversationParticipant,
      (∀ p ∈ l, p.conversation_id < db.nextId) →
      findDirectIn db1 Y l = findDirectIn db Y l := by
  intro l
  induction l with
  | nil => intro _; rfl
  | cons p rest ih =>
    intro hl
    have hplt : p.conversation_id < db.nextId := hl p (by simp)
    have hne : db.nextId ≠ p.conversation_id := (Nat.ne_of_lt hplt).symm
    have hany : db1.participants.any (participantMatches p.conversation_id Y)
        = db.participants.any (participantMatches p.conversation_id Y) := by
      rw [hparts, List.any_append]
      have h2 : fresh.any (participantMatches p.conversation_id Y) = false := by
        rw [List.any_eq_false]
        intro q hq
        simp only [participantMatches, Bool.and_eq_true, beq_iff_eq, not_and]
        intro heq
        rw [hfresh q hq] at heq
        exact absurd heq.1 hne
      rw [h2, Bool.or_false]
    have hfind : db1.conversations.find? (directConvMatches p.conversation_id)
        = db.conversations.find? (directConvMatches p.conversation_id) := by
      rw [hconvs, List.find?_append]
      have h3 : ([c]).find? (directConvMatches p.conversation_id) = none := by
        have hbeq : (db.nextId == p.conversation_id) = false :=
          beq_eq_false_iff_ne.mpr hne
        simp [directConvMatches, hcid, hbeq, List.find?]
      rw [h3, Option.or_none]
    simp only [findDirectIn, hany, hfind]
    by_cases hb : db.participants.any (participantMatches p.conversation_id Y) = true
    · simp only [hb, if_true]
      cases hx : db.conversations.find? (directConvMatches p.conversation_id) with
      | some conv => rfl
      | none => exact ih (fun q hq => hl q (by simp [hq]))
    · simp only [hb, if_false]
      exact ih (fun q hq => hl q (by simp [hq]))

/-- Creating a DIRECT conversation when none exists between the two
users inserts one conversation and two participant records. -/
lemma createConversation_direct_fresh (db : DB) (A B : String) (now : Nat)
    (hwf : db.WF) (hAB : A ≠ B)
    (h1 : getDirectConversation db A B = none) :
    createConversation db A (mkDirectCreate B) now
      = (.ok (directConv db now), directResultDB db A B now) := by
  obtain ⟨hwfC, hwfP⟩ := hwf
  have hfA : db.participants.find? (participantKey db.nextId A) = none := by
    rw [List.find?_eq_none]
    intro q hq
    simp only [participantKey, Bool.and_eq_true, beq_iff_eq, not_and]
    intro heq
    exact absurd heq (Nat.ne_of_lt (hwfP q hq))
  have hfB : (db.participants ++ [directPartA db A now]).find?
      (participantKey db.nextId B) = none := by
    rw [List.find?_eq_none]
    intro q hq
    rcases List.mem_append.mp hq with hq | hq
    · simp only [participantKey, Bool.and_eq_true, beq_iff_eq, not_and]
      intro heq
      exact absurd heq (Nat.ne_of_lt (hwfP q hq))
    · simp only [List.mem_singleton] at hq
      subst hq
      simp [participantKey, directPartA, hAB]
  have hng : (ConversationType.DIRECT == ConversationType.GROUP) = false := rfl
  simp only [directPartA] at hfB
  simp only [createConversation, mkDirectCreate]
  rw [h1]
  simp only [createConversationCore, addParticipant, List.foldl, hng,
    Bool.false_eq_true, if_false]
  simp only [hfA, hfB]
  simp [directResultDB, directConv, directPartA, directPartB]

/-- `get_direct_conversation` finds the freshly created DIRECT
conversation between its two (distinct) users, scanning in either
argument order. -/
lemma getDirectConversation_extend (db db1 : DB) (X Y : String) (c : Conversation)
    (pX pY : ConversationParticipant) (fresh : List ConversationParticipant)
    (hwfC : ∀ conv ∈ db.conversations, conv.id < db.nextId)
    (hwfP : ∀ p ∈ db.participants, p.conversation_id < db.nextId)
    (hnone : getDirectConversation db X Y = none)
    (hcid : c.id = db.nextId)
    (hctype : c.type = ConversationType.DIRECT)
    (hfresh : ∀ p ∈ fresh, p.conversation_id = db.nextId)
    (hfilter : fresh.filter (activeOf X) = [pX])
    (hpXc : pX.conversation_id = db.nextId)
    (hpY : pY ∈ fresh)
    (hpYu : pY.user_id = Y) (hpYl : pY.left_at = none)
    (hpYc : pY.conversation_id = db.nextId)
    (hparts : db1.participants = db.participants ++ fresh)
    (hconvs : db1.conversations = db.conversations ++ [c]) :
    getDirectConversation db1 X Y = some c := by
  have hext := findDirectIn_extend db db1 Y c fresh hcid hfresh hparts hconvs
  unfold getDirectConversation
  rw [hparts, List.filter_append, hfilter, findDirectIn_append]
  have hold : findDirectIn db1 Y (db.participants.filter (activeOf X)) = none := by
    rw [hext _ (fun p hp => hwfP p (List.mem_of_mem_filter hp))]
    exact hnone
  rw [hold, Option.none_or]
  have hany : db1.participants.any (participantMatches pX.conversation_id Y) = true := by
    refine List.any_eq_true.mpr ⟨pY, ?_, ?_⟩
    · rw [hparts]
      exact List.mem_append.mpr (Or.inr hpY)
    · simp [participantMatches, hpYc, hpXc, hpYu, hpYl]
  have hfn : db1.conversations.find? (directConvMatches pX.conversation_id) = some c := by
    rw [hconvs, List.find?_append]
    have hnoneC : db.conversations.find? (directConvMatches pX.conversation_id)
        = none := by
      rw [List.find?_eq_none]
      intro conv hconv
      simp only [directConvMatches, Bool.and_eq_true, beq_iff_eq, not_and]
      intro heq
      rw [hpXc] at heq
      exact absurd heq (Nat.ne_of_lt (hwfC conv hconv))
    rw [hnoneC, Option.none_or]
    simp [List.find?, directConvMatches, hpXc, hcid, hctype]
  simp only [findDirectIn, hany, if_true, hfn]

/-- C3.  Starting from a well-formed store with no existing DIRECT
conversation between distinct principals A and B, creating a DIRECT
conversation twice — the second call in either argument order — returns
the very same conversation both times and the second call inserts
nothing. -/
theorem direct_conversation_idempotent (db : DB) (A B : String) (now1 now2 : Nat)
    (hwf : db.WF) (hAB : A ≠ B)
    (h1 : getDirectConversation db A B = none)
    (h2 : getDirectConversation db B A = none) :
    ∃ c db1,
      createConversation db A (mkDirectCreate B) now1 = (.ok c, db1) ∧
      createConversation db1 A (mkDirectCreate B) now2 = (.ok c, db1) ∧
      createConversation db1 B (mkDirectCreate A) now2 = (.ok c, db1) := by
  obtain ⟨hwfC, hwfP⟩ := hwf
  have hBA : B ≠ A := Ne.symm hAB
  have hfilA : ([directPartA db A now1, directPartB db B now1]).filter (activeOf A)
      = [directPartA db A now1] := by
    simp [activeOf, directPartA, directPartB, hBA]
  have hfilB : ([directPartA db A now1, directPartB db B now1]).filter (activeOf B)
      = [directPartB db B now1] := by
    simp [activeOf, directPartA, directPartB, hAB]
  have hparts : (directResultDB db A B now1).participants
      = db.participants ++ [directPartA db A now1, directPartB db B now1] := by
    simp [directResultDB]
  have hconvs : (directResultDB db A B now1).conversations
      = db.conversations ++ [directConv db now1] := rfl
  have hfresh : ∀ p ∈ [directPartA db A now1, directPartB db B now1],
      p.conversation_id = db.nextId := by
    intro p hp
    rcases List.mem_cons.mp hp with h | h
    · subst h; rfl
    · simp only [List.mem_singleton] at h
      subst h; rfl
  have hgA : getDirectConversation (directResultDB db A B now1) A B
      = some (directConv db now1) :=
    getDirectConversation_extend db (directResultDB db A B now1) A B
      (directConv db now1) (directPartA db A now1) (directPartB db B now1)
      [directPartA db A now1, directPartB db B now1]
      hwfC hwfP h1 rfl rfl hfresh hfilA rfl (by simp) rfl rfl rfl hparts hconvs
  have hgB : getDirectConversation (directResultDB db A B now1) B A
      = some (directConv db now1) :=
    getDirectConversation_extend db (directResultDB db A B now1) B A
      (directConv db now1) (directPartB db B now1) (directPartA db A now1)
      [directPartA db A now1, directPartB db B now1]
      hwfC hwfP h2 rfl rfl hfresh hfilB rfl (by simp) rfl rfl rfl hparts hconvs
  refine ⟨directConv db now1, directResultDB db A B now1,
    createConversation_direct_fresh db A B now1 ⟨hwfC, hwfP⟩ hAB h1, ?_, ?_⟩
  · simp only [createConversation, mkDirectCreate]
    rw [hgA]
  · simp only [createConversation, mkDirectCreate]
    rw [hgB]

/-- The empty store. -/
def emptyDB : DB :=
  { conversations := [], participants := [], messages := [], nextId := 0 }

/-- Witness for C3: alice and bob create their DIRECT chat twice from an
empty store, and the second call in either argument order returns the
conversation created by the first. -/
theorem direct_conversation_idempotent_witness :
    ∃ c db1,
      createConversation emptyDB "alice" (mkDirectCreate "bob") 1 = (.ok c, db1) ∧
      createConversation db1 "alice" (mkDirectCreate "bob") 2 = (.ok c, db1) ∧
      createConversation db1 "bob" (mkDirectCreate "alice") 2 = (.ok c, db1) :=
  direct_conversation_idempotent emptyDB "alice" "bob" 1 2
    ⟨by simp [emptyDB], by simp [emptyDB]⟩ (by decide) rfl rfl

/-- The `SEND_MESSAGE` frame alice sends in the C8 witness: conversation
5, content "hi", tempId "t1". -/
def wFrame : SendMessageFrame :=
  { conversationId := some 5, content := some "hi", media := [],
    tempId := some "t1", replyToMessageId := none }

/-- Witness for C8 on the success path: in the witness store, alice's
valid frame with a succeeding publish yields exactly the `MESSAGE_ACK`
carrying the created message's id 20 and the echoed tempId "t1" (and
the connection stays open). -/
theorem send_message_frame_ack_or_error_witness :
    (handleSendMessage wDB "alice" wFrame true 7).2.2 = true ∧
    (handleSendMessage wDB "alice" wFrame true 7).1
      = [ServerFrame.messageAck (some "t1") 20 "SENT"] := by
  have h := send_message_frame_ack_or_error wDB "alice" wFrame true 7
  refine ⟨h.1, ?_⟩
  have h2 := h.2.2.2.2.2 5 rfl (by decide) wMsg wDB2 rfl
  simpa using h2

end AOV
